import Mathlib

/-!
Shallow embedding of `src/bot/gemini_helper.py` (class `GeminiHelper`).

The adapter holds a mutable mapping `self.conversations : dict[int, list]`
from chat id to message history, and delegates every substantive operation
to the external Gemini SDK.  External calls are modelled as explicit
function parameters (`send`, `countTokens`, `sendStream`) returning
`Except String _`: the adapter cannot observe anything about them beyond
their result.  Each Python method becomes a pure Lean function from the
mapping (and the oracle parameters) to the new mapping together with the
returned value, so mutation of `self.conversations` is explicit state
passing.
-/

namespace GeminiBot

/-- One entry of a chat history (`genai` content object: a role and a text). -/
structure Message where
  role : String
  text : String
deriving DecidableEq

/-- A conversation history: ordered list of prior turns. -/
abbrev History := List Message

/-- The `self.conversations` dict: chat id to stored history. -/
def ConvMap := Int → Option History

/-- The empty dict `{}` that `__init__` creates. -/
def emptyConv : ConvMap := fun _ => none

/-- Python `d[k] = v`. -/
def ConvMap.insert (m : ConvMap) (k : Int) (v : History) : ConvMap :=
  fun j => if j = k then some v else m j

/-- Python `del d[k]`. -/
def ConvMap.erase (m : ConvMap) (k : Int) : ConvMap :=
  fun j => if j = k then none else m j

/-- Python `k in d`. -/
def ConvMap.contains (m : ConvMap) (k : Int) : Bool :=
  (m k).isSome

/-- Python `d.get(k, [])`. -/
def histD (m : ConvMap) (k : Int) : History :=
  (m k).getD []

/-- The guard `if chat_id not in self.conversations: self.conversations[chat_id] = []`
that opens `get_chat_response`, `get_conversation_stats` and
`get_chat_response_stream`. -/
def ensure (m : ConvMap) (k : Int) : ConvMap :=
  if m.contains k then m else m.insert k []

/-- Result of a successful `chat.send_message_async(query)`: the reply text
(`response.text`) and the chat history after the exchange (`chat.history`). -/
structure SendOutcome where
  text : String
  history : History
deriving DecidableEq

/-- The wrapped error message raised by the `except` blocks:
`f"⚠️ An error occurred while communicating with Gemini. ⚠️\n{str(e)}"`. -/
def wrapError (e : String) : String :=
  "⚠️ An error occurred while communicating with Gemini. ⚠️\n" ++ e

/-- Method `get_chat_response(chat_id, query)`.  Parameter `send` models
`start_chat(history=...)` followed by `send_message_async(query)` and the
`.text` access; `countTokens` models `count_tokens_async`.  The history is
replaced (`self.conversations[chat_id] = chat.history`) before
`count_tokens_async` runs, exactly as in the Python.  Returns the mapping
after the call together with either the wrapped error or the pair
`(answer, str(token_count.total_tokens))`. -/
def get_chat_response
    (send : History → String → Except String SendOutcome)
    (countTokens : History → Except String Nat)
    (conversations : ConvMap) (chat_id : Int) (query : String) :
    ConvMap × Except String (String × String) :=
  match send (histD (ensure conversations chat_id) chat_id) query with
  | .error e => (ensure conversations chat_id, .error (wrapError e))
  | .ok out =>
    match countTokens out.history with
    | .error e =>
      ((ensure conversations chat_id).insert chat_id out.history,
        .error (wrapError e))
    | .ok n =>
      ((ensure conversations chat_id).insert chat_id out.history,
        .ok (out.text, toString n))

/-- Method `reset_chat_history(chat_id)`:
`if chat_id in self.conversations: del self.conversations[chat_id]`. -/
def reset_chat_history (conversations : ConvMap) (chat_id : Int) : ConvMap :=
  if conversations.contains chat_id then conversations.erase chat_id
  else conversations

/-- Method `get_conversation_stats(chat_id)`: ensures an entry, then
returns `(len(self.conversations[chat_id]), token_count.total_tokens)`.
There is no `try` here, so a `count_tokens_async` failure propagates
unwrapped. -/
def get_conversation_stats
    (countTokens : History → Except String Nat)
    (conversations : ConvMap) (chat_id : Int) :
    ConvMap × Except String (Nat × Nat) :=
  match countTokens (histD (ensure conversations chat_id) chat_id) with
  | .error e => (ensure conversations chat_id, .error e)
  | .ok n =>
    (ensure conversations chat_id,
      .ok ((histD (ensure conversations chat_id) chat_id).length, n))

/-- The chunk sequence delivered by `send_message_async(query, stream=True)`:
the `.text` of each chunk the iterator yields before it finishes or raises,
then either the final `chat.history` (normal termination) or the error
that the iteration (or the initial call) raised. -/
structure StreamOutcome where
  chunks : List String
  tail : Except String History

/-- The `async for` loop body of `get_chat_response_stream`: starting from
accumulator `acc`, for each chunk with non-empty text append it and yield
`(answer, 'not_finished')`; empty chunks yield nothing. -/
def accumYields (acc : String) : List String → List (String × String)
  | [] => []
  | c :: cs =>
    if c = "" then accumYields acc cs
    else (acc ++ c, "not_finished") :: accumYields (acc ++ c) cs

/-- The value of `answer` after the `async for` loop over the chunks. -/
def finalAcc (acc : String) : List String → String
  | [] => acc
  | c :: cs => if c = "" then finalAcc acc cs else finalAcc (acc ++ c) cs

/-- Observable behaviour of one call to `get_chat_response_stream`: the
pairs the generator yields, the mapping when iteration ends, and the
wrapped error the generator raises at the end, if any. -/
structure StreamRun where
  yields : List (String × String)
  conversations : ConvMap
  failure : Option String

/-- Remainder of `get_chat_response_stream` once the upstream stream
outcome `so` is fixed: the yields of the `async for` loop, then either the
wrapped error, or the history replacement, token count and final yield. -/
def streamRunOf (countTokens : History → Except String Nat)
    (m : ConvMap) (chat_id : Int) (so : StreamOutcome) : StreamRun :=
  match so.tail with
  | .error e => ⟨accumYields "" so.chunks, m, some (wrapError e)⟩
  | .ok h =>
    match countTokens h with
    | .error e => ⟨accumYields "" so.chunks, m.insert chat_id h, some (wrapError e)⟩
    | .ok n =>
      ⟨accumYields "" so.chunks ++ [(finalAcc "" so.chunks, toString n)],
        m.insert chat_id h, none⟩

/-- Method `get_chat_response_stream(chat_id, query)`.  Parameter
`sendStream` models the streamed upstream call; after a
normally-terminated iteration the history is replaced and
`count_tokens_async` is called, and the final
`(answer, str(token_count.total_tokens))` is yielded.  Any upstream error
surfaces as a wrapped exception after the yields already produced. -/
def get_chat_response_stream
    (sendStream : History → String → StreamOutcome)
    (countTokens : History → Except String Nat)
    (conversations : ConvMap) (chat_id : Int) (query : String) : StreamRun :=
  streamRunOf countTokens (ensure conversations chat_id) chat_id
    (sendStream (histD (ensure conversations chat_id) chat_id) query)

/-- The configuration dict, as far as `__init__` reads it:
`config.get('api_key')` is `none` when the key is absent. -/
structure Config where
  api_key : Option String
deriving DecidableEq

/-- The adapter state built by `__init__`: the stored config and the
empty conversations dict.  (The `genai` SDK objects are external.) -/
structure GeminiHelper where
  config : Config
  conversations : ConvMap

/-- Constructor `__init__(config)`: reads `config.get('api_key')`; a falsy
value (absent key or empty string) raises `ValueError`; otherwise the
helper is constructed with `self.conversations = {}`. -/
def GeminiHelper.init (config : Config) : Except String GeminiHelper :=
  match config.api_key with
  | none => .error "Gemini API key is missing from the configuration."
  | some k =>
    if k = "" then .error "Gemini API key is missing from the configuration."
    else .ok ⟨config, emptyConv⟩

/-- String `a` is a prefix of `b` (there is a suffix `t` with `a ++ t = b`). -/
def isPre (a b : String) : Prop := ∃ t, a ++ t = b

/-- String `b` strictly extends `a`: a non-empty suffix is appended. -/
def strictGrow (a b : String) : Prop := ∃ t, t ≠ "" ∧ a ++ t = b

/- ### Basic lemmas about the dict operations -/

theorem histD_ensure (m : ConvMap) (k : Int) :
    histD (ensure m k) k = histD m k := by
  unfold ensure ConvMap.contains ConvMap.insert histD
  cases hm : m k <;> simp [hm]

theorem ensure_apply_ne (m : ConvMap) (k j : Int) (hj : j ≠ k) :
    ensure m k j = m j := by
  unfold ensure ConvMap.contains ConvMap.insert
  cases hm : m k <;> simp [hm, hj]

theorem insert_ensure (m : ConvMap) (k : Int) (v : History) :
    (ensure m k).insert k v = m.insert k v := by
  funext j
  unfold ensure ConvMap.contains ConvMap.insert
  by_cases hj : j = k <;> cases hm : m k <;> simp [hj, hm]

theorem ensure_of_isSome (m : ConvMap) (k : Int) (h : (m k).isSome) :
    ensure m k = m := by
  unfold ensure ConvMap.contains
  simp [h]

theorem ensure_of_none (m : ConvMap) (k : Int) (h : m k = none) :
    ensure m k = m.insert k [] := by
  unfold ensure ConvMap.contains
  simp [h]

theorem insert_apply_ne (m : ConvMap) (k : Int) (v : History) (j : Int)
    (hj : j ≠ k) : m.insert k v j = m j := by
  unfold ConvMap.insert
  simp [hj]

theorem insert_apply_self (m : ConvMap) (k : Int) (v : History) :
    m.insert k v k = some v := by
  unfold ConvMap.insert
  simp

theorem histD_insert (m : ConvMap) (k : Int) (v : History) :
    histD (m.insert k v) k = v := by
  unfold ConvMap.insert histD
  simp

theorem append_eq_self {a t : String} (h : a ++ t = a) : t = "" := by
  have hd : a.data ++ t.data = a.data ++ [] := by
    have hc := congrArg String.data h
    rw [String.data_append] at hc
    rw [hc, List.append_nil]
  have ht : t.data = [] := List.append_cancel_left hd
  cases t
  simp_all

/- ### Structure of the yields of the streaming loop -/

theorem accumYields_status (cs : List String) : ∀ (acc : String),
    ∀ p ∈ accumYields acc cs, p.2 = "not_finished" := by
  induction cs with
  | nil => intro acc p hp; simp [accumYields] at hp
  | cons c cs ih =>
    intro acc p hp
    by_cases hc : c = ""
    · simp only [accumYields, if_pos hc] at hp
      exact ih acc p hp
    · simp only [accumYields, if_neg hc] at hp
      rcases List.mem_cons.mp hp with h | h
      · rw [h]
      · exact ih (acc ++ c) p h

theorem accumYields_head (cs : List String) : ∀ (acc : String) (p : String × String),
    (accumYields acc cs).head? = some p → strictGrow acc p.1 := by
  induction cs with
  | nil => intro acc p hp; simp [accumYields] at hp
  | cons c cs ih =>
    intro acc p hp
    by_cases hc : c = ""
    · simp only [accumYields, if_pos hc] at hp
      exact ih acc p hp
    · simp only [accumYields, if_neg hc, List.head?_cons] at hp
      rw [← Option.some_inj.mp hp]
      exact ⟨c, hc, rfl⟩

theorem accumYields_chain (cs : List String) : ∀ (acc : String),
    List.Chain' (fun a b => strictGrow a.1 b.1) (accumYields acc cs) := by
  induction cs with
  | nil => intro acc; simp [accumYields]
  | cons c cs ih =>
    intro acc
    by_cases hc : c = ""
    · simp only [accumYields, if_pos hc]
      exact ih acc
    · simp only [accumYields, if_neg hc]
      rw [List.chain'_cons']
      refine ⟨?_, ih (acc ++ c)⟩
      intro b hb
      exact accumYields_head cs (acc ++ c) b (Option.mem_def.mp hb)

theorem finalAcc_isPre (cs : List String) : ∀ acc, isPre acc (finalAcc acc cs) := by
  induction cs with
  | nil => intro acc; exact ⟨"", String.append_empty acc⟩
  | cons c cs ih =>
    intro acc
    by_cases hc : c = ""
    · simp only [finalAcc, if_pos hc]
      exact ih acc
    · simp only [finalAcc, if_neg hc]
      obtain ⟨t, ht⟩ := ih (acc ++ c)
      exact ⟨c ++ t, by rw [← String.append_assoc, ht]⟩

theorem accumYields_pre (cs : List String) : ∀ acc, ∀ p ∈ accumYields acc cs,
    isPre p.1 (finalAcc acc cs) := by
  induction cs with
  | nil => intro acc p hp; simp [accumYields] at hp
  | cons c cs ih =>
    intro acc p hp
    by_cases hc : c = ""
    · simp only [accumYields, if_pos hc] at hp
      simp only [finalAcc, if_pos hc]
      exact ih acc p hp
    · simp only [accumYields, if_neg hc] at hp
      simp only [finalAcc, if_neg hc]
      rcases List.mem_cons.mp hp with h | h
      · rw [h]
        exact finalAcc_isPre cs (acc ++ c)
      · exact ih (acc ++ c) p h

theorem accumYields_nil_finalAcc (cs : List String) : ∀ acc,
    accumYields acc cs = [] → finalAcc acc cs = acc := by
  induction cs with
  | nil => intro acc _; rfl
  | cons c cs ih =>
    intro acc h
    by_cases hc : c = ""
    · simp only [accumYields, if_pos hc] at h
      simp only [finalAcc, if_pos hc]
      exact ih acc h
    · simp only [accumYields, if_neg hc] at h
      exact absurd h (List.cons_ne_nil _ _)

theorem accumYields_last (cs : List String) : ∀ acc p,
    (accumYields acc cs).getLast? = some p → p.1 = finalAcc acc cs := by
  induction cs with
  | nil => intro acc p hp; simp [accumYields] at hp
  | cons c cs ih =>
    intro acc p hp
    by_cases hc : c = ""
    · simp only [accumYields, if_pos hc] at hp
      simp only [finalAcc, if_pos hc]
      exact ih acc p hp
    · simp only [accumYields, if_neg hc] at hp
      simp only [finalAcc, if_neg hc]
      cases hrest : accumYields (acc ++ c) cs with
      | nil =>
        rw [hrest] at hp
        simp only [List.getLast?_singleton] at hp
        rw [accumYields_nil_finalAcc cs (acc ++ c) hrest]
        rw [← Option.some_inj.mp hp]
      | cons q qs =>
        rw [hrest, List.getLast?_cons_cons, ← hrest] at hp
        exact ih (acc ++ c) p hp

theorem accumYields_length (cs : List String) : ∀ acc,
    (accumYields acc cs).length = cs.countP (fun c => !(c == "")) := by
  induction cs with
  | nil => intro acc; rfl
  | cons c cs ih =>
    intro acc
    rw [List.countP_cons]
    by_cases hc : c = ""
    · simp only [accumYields, if_pos hc]
      simp [hc, ih acc]
    · simp only [accumYields, if_neg hc, List.length_cons]
      simp [hc, ih (acc ++ c)]

/- ### Concrete oracle instances used by witnesses and counterexamples -/

/-- A model that answers "hello" and appends the exchange to the history. -/
def wSend : History → String → Except String SendOutcome :=
  fun h q => .ok ⟨"hello", h ++ [⟨"user", q⟩, ⟨"model", "hello"⟩]⟩

/-- A token counter that reports the number of messages. -/
def wCount : History → Except String Nat :=
  fun h => .ok h.length

/-- A model call that always fails. -/
def failSend : History → String → Except String SendOutcome :=
  fun _ _ => .error "boom"

/-- A token counter that always fails. -/
def failCount : History → Except String Nat :=
  fun _ => .error "countboom"

/-- A streamed model call delivering one chunk "hi" and then the extended
history. -/
def wSendStream : History → String → StreamOutcome :=
  fun h q => ⟨["hi"], .ok (h ++ [⟨"user", q⟩, ⟨"model", "hi"⟩])⟩

/-- A streamed model call that fails before yielding anything. -/
def failSendStream : History → String → StreamOutcome :=
  fun _ _ => ⟨[], .error "streamboom"⟩

/-- A streamed model call delivering a non-empty chunk and then an empty
chunk before terminating. -/
def wSendStreamE : History → String → StreamOutcome :=
  fun h q => ⟨["hi", ""], .ok (h ++ [⟨"user", q⟩, ⟨"model", "hi"⟩])⟩

/- ### Unfolding lemmas for the three outcomes of get_chat_response -/

theorem get_chat_response_sendError
    (send : History → String → Except String SendOutcome)
    (countTokens : History → Except String Nat)
    (m : ConvMap) (chat_id : Int) (query : String) (e : String)
    (hs : send (histD m chat_id) query = .error e) :
    get_chat_response send countTokens m chat_id query
      = (ensure m chat_id, .error (wrapError e)) := by
  unfold get_chat_response
  rw [histD_ensure, hs]

theorem get_chat_response_countError
    (send : History → String → Except String SendOutcome)
    (countTokens : History → Except String Nat)
    (m : ConvMap) (chat_id : Int) (query : String)
    (out : SendOutcome) (e : String)
    (hs : send (histD m chat_id) query = .ok out)
    (hc : countTokens out.history = .error e) :
    get_chat_response send countTokens m chat_id query
      = (m.insert chat_id out.history, .error (wrapError e)) := by
  unfold get_chat_response
  rw [histD_ensure, hs]
  simp only [hc, insert_ensure]

theorem get_chat_response_ok
    (send : History → String → Except String SendOutcome)
    (countTokens : History → Except String Nat)
    (m : ConvMap) (chat_id : Int) (query : String)
    (out : SendOutcome) (n : Nat)
    (hs : send (histD m chat_id) query = .ok out)
    (hc : countTokens out.history = .ok n) :
    get_chat_response send countTokens m chat_id query
      = (m.insert chat_id out.history, .ok (out.text, toString n)) := by
  unfold get_chat_response
  rw [histD_ensure, hs]
  simp only [hc, insert_ensure]

/- ### Unfolding lemmas for the three outcomes of get_chat_response_stream -/

theorem stream_tailError
    (sendStream : History → String → StreamOutcome)
    (countTokens : History → Except String Nat)
    (m : ConvMap) (chat_id : Int) (query : String)
    (cs : List String) (e : String)
    (hs : sendStream (histD m chat_id) query = ⟨cs, .error e⟩) :
    get_chat_response_stream sendStream countTokens m chat_id query
      = ⟨accumYields "" cs, ensure m chat_id, some (wrapError e)⟩ := by
  unfold get_chat_response_stream
  rw [histD_ensure, hs]
  rfl

theorem stream_countError
    (sendStream : History → String → StreamOutcome)
    (countTokens : History → Except String Nat)
    (m : ConvMap) (chat_id : Int) (query : String)
    (cs : List String) (h : History) (e : String)
    (hs : sendStream (histD m chat_id) query = ⟨cs, .ok h⟩)
    (hc : countTokens h = .error e) :
    get_chat_response_stream sendStream countTokens m chat_id query
      = ⟨accumYields "" cs, m.insert chat_id h, some (wrapError e)⟩ := by
  unfold get_chat_response_stream
  rw [histD_ensure, hs]
  unfold streamRunOf
  simp only
  rw [hc, insert_ensure]

theorem stream_ok
    (sendStream : History → String → StreamOutcome)
    (countTokens : History → Except String Nat)
    (m : ConvMap) (chat_id : Int) (query : String)
    (cs : List String) (h : History) (n : Nat)
    (hs : sendStream (histD m chat_id) query = ⟨cs, .ok h⟩)
    (hc : countTokens h = .ok n) :
    get_chat_response_stream sendStream countTokens m chat_id query
      = ⟨accumYields "" cs ++ [(finalAcc "" cs, toString n)],
          m.insert chat_id h, none⟩ := by
  unfold get_chat_response_stream
  rw [histD_ensure, hs]
  unfold streamRunOf
  simp only
  rw [hc, insert_ensure]

/- ### Claim theorems -/

/-- C1: a successful `get_chat_response` looks up the stored history for
the id (empty if absent), forwards it with the new message to the model
(hypothesis `hs` applies `send` to exactly `histD m chat_id` and `query`),
replaces the stored history for the id with the history the model
returned, and returns the model's answer text together with the token
count the external API reports for the updated history (in the decimal
string form `str(...)` the code produces). -/
theorem send_full_behavior
    (send : History → String → Except String SendOutcome)
    (countTokens : History → Except String Nat)
    (m : ConvMap) (chat_id : Int) (query : String)
    (out : SendOutcome) (n : Nat)
    (hs : send (histD m chat_id) query = .ok out)
    (hc : countTokens out.history = .ok n) :
    get_chat_response send countTokens m chat_id query
      = (m.insert chat_id out.history, .ok (out.text, toString n)) :=
  get_chat_response_ok send countTokens m chat_id query out n hs hc

/-- C1 witness: on the empty mapping, id 0, query "hi", a model that
answers "hello" and appends the exchange: the stored history becomes the
two-message exchange and the call returns ("hello", "2"). -/
theorem send_full_behavior_witness :
    get_chat_response wSend wCount emptyConv 0 "hi"
      = (emptyConv.insert 0 [⟨"user", "hi"⟩, ⟨"model", "hello"⟩],
          .ok ("hello", "2")) :=
  send_full_behavior wSend wCount emptyConv 0 "hi"
    ⟨"hello", [⟨"user", "hi"⟩, ⟨"model", "hello"⟩]⟩ 2 rfl rfl

/-- C6: after a successful `get_chat_response`, assuming the model returns
the forwarded history extended by exactly the completed exchange (the
user's message and the model's reply), the stored history's length equals
its length before the call plus two. -/
theorem send_grows_history_by_exchange
    (send : History → String → Except String SendOutcome)
    (countTokens : History → Except String Nat)
    (m : ConvMap) (chat_id : Int) (query : String)
    (umsg reply : Message) (out : SendOutcome) (n : Nat)
    (hs : send (histD m chat_id) query = .ok out)
    (hh : out.history = histD m chat_id ++ [umsg, reply])
    (hc : countTokens out.history = .ok n) :
    (histD (get_chat_response send countTokens m chat_id query).1 chat_id).length
      = (histD m chat_id).length + 2 := by
  rw [get_chat_response_ok send countTokens m chat_id query out n hs hc]
  simp only [histD_insert, hh, List.length_append, List.length_cons,
    List.length_nil]

/-- C6 witness: starting from the empty mapping, one successful exchange
takes the stored history for id 0 from length 0 to length 2. -/
theorem send_grows_history_by_exchange_witness :
    (histD (get_chat_response wSend wCount emptyConv 0 "hi").1 0).length
      = (histD emptyConv 0).length + 2 :=
  send_grows_history_by_exchange wSend wCount emptyConv 0 "hi"
    ⟨"user", "hi"⟩ ⟨"model", "hello"⟩
    ⟨"hello", [⟨"user", "hi"⟩, ⟨"model", "hello"⟩]⟩ 2 rfl rfl rfl

/-- C5: `reset_chat_history` removes the id's entry from the mapping, leaves
every other id untouched, is a no-op on the mapping when the id has no
entry, and after a reset the next access to that conversation starts from
the empty history. -/
theorem reset_removes_history (m : ConvMap) (chat_id : Int) :
    reset_chat_history m chat_id chat_id = none ∧
    (∀ j, j ≠ chat_id → reset_chat_history m chat_id j = m j) ∧
    (m chat_id = none → reset_chat_history m chat_id = m) ∧
    histD (reset_chat_history m chat_id) chat_id = [] := by
  refine ⟨?_, ?_, ?_, ?_⟩
  · unfold reset_chat_history ConvMap.contains ConvMap.erase
    cases hm : m chat_id <;> simp [hm]
  · intro j hj
    unfold reset_chat_history ConvMap.contains ConvMap.erase
    cases hm : m chat_id <;> simp [hm, hj]
  · intro h0
    unfold reset_chat_history ConvMap.contains
    simp [h0]
  · unfold reset_chat_history ConvMap.contains ConvMap.erase histD
    cases hm : m chat_id <;> simp [hm]

/-- C5 witness: on the empty mapping at id 0, reset is a no-op and the next
access starts empty. -/
theorem reset_removes_history_witness :
    histD (reset_chat_history emptyConv 0) 0 = [] ∧
    reset_chat_history emptyConv 0 = emptyConv :=
  ⟨(reset_removes_history emptyConv 0).2.2.2,
    (reset_removes_history emptyConv 0).2.2.1 rfl⟩

/-- C3 counterexample: the claim of error atomicity fails at an explicit
input.  With no entry stored for id 0 and an upstream call that fails, the
mapping after the failed `get_chat_response` differs from the mapping
before the call: the empty entry for id 0 is inserted before the `try`
block runs. -/
theorem failure_not_atomic_counterexample :
    (get_chat_response failSend wCount emptyConv 0 "q").1 ≠ emptyConv ∧
    (get_chat_response failSend wCount emptyConv 0 "q").1 0 = some [] ∧
    emptyConv 0 = none := by
  refine ⟨?_, rfl, rfl⟩
  intro hEq
  have h0 : (get_chat_response failSend wCount emptyConv 0 "q").1 0
      = some [] := rfl
  rw [hEq] at h0
  exact Option.noConfusion h0

/-- C3 corrected: on a failed call the mapping is not always untouched.
What holds: every id other than the queried one keeps its entry; if the
queried id had an entry and the model call itself fails, the mapping is
unchanged (`ensure` is the identity there); if the id had no entry, the
failed call leaves behind a fresh empty entry; and if the model call
succeeds but the token count fails, the queried id's history has already
been replaced by the history the model returned.  The same holds for the
streaming variant. -/
theorem failure_mapping_effects
    (send : History → String → Except String SendOutcome)
    (sendStream : History → String → StreamOutcome)
    (countTokens : History → Except String Nat)
    (m : ConvMap) (chat_id : Int) (query : String) :
    (∀ j, j ≠ chat_id →
      (get_chat_response send countTokens m chat_id query).1 j = m j) ∧
    (∀ e, send (histD m chat_id) query = .error e →
      (get_chat_response send countTokens m chat_id query).1
        = ensure m chat_id) ∧
    (∀ out e, send (histD m chat_id) query = .ok out →
      countTokens out.history = .error e →
      (get_chat_response send countTokens m chat_id query).1
        = m.insert chat_id out.history) ∧
    (∀ j, j ≠ chat_id →
      (get_chat_response_stream sendStream countTokens m chat_id query).conversations j
        = m j) ∧
    (∀ cs e, sendStream (histD m chat_id) query = ⟨cs, .error e⟩ →
      (get_chat_response_stream sendStream countTokens m chat_id query).conversations
        = ensure m chat_id) ∧
    (∀ cs h e, sendStream (histD m chat_id) query = ⟨cs, .ok h⟩ →
      countTokens h = .error e →
      (get_chat_response_stream sendStream countTokens m chat_id query).conversations
        = m.insert chat_id h) ∧
    ((m chat_id).isSome → ensure m chat_id = m) ∧
    (m chat_id = none → ensure m chat_id = m.insert chat_id []) := by
  refine ⟨?_, ?_, ?_, ?_, ?_, ?_,
    ensure_of_isSome m chat_id, ensure_of_none m chat_id⟩
  · intro j hj
    cases hsr : send (histD m chat_id) query with
    | error e =>
      rw [get_chat_response_sendError send countTokens m chat_id query e hsr]
      exact ensure_apply_ne m chat_id j hj
    | ok out =>
      cases hcr : countTokens out.history with
      | error e =>
        rw [get_chat_response_countError send countTokens m chat_id query
          out e hsr hcr]
        exact insert_apply_ne m chat_id out.history j hj
      | ok n =>
        rw [get_chat_response_ok send countTokens m chat_id query out n hsr hcr]
        exact insert_apply_ne m chat_id out.history j hj
  · intro e hsr
    rw [get_chat_response_sendError send countTokens m chat_id query e hsr]
  · intro out e hsr hcr
    rw [get_chat_response_countError send countTokens m chat_id query
      out e hsr hcr]
  · intro j hj
    rcases hso : sendStream (histD m chat_id) query with ⟨cs, tl⟩
    cases tl with
    | error e =>
      rw [stream_tailError sendStream countTokens m chat_id query cs e hso]
      exact ensure_apply_ne m chat_id j hj
    | ok h =>
      cases hcr : countTokens h with
      | error e =>
        rw [stream_countError sendStream countTokens m chat_id query
          cs h e hso hcr]
        exact insert_apply_ne m chat_id h j hj
      | ok n =>
        rw [stream_ok sendStream countTokens m chat_id query cs h n hso hcr]
        exact insert_apply_ne m chat_id h j hj
  · intro cs e hso
    rw [stream_tailError sendStream countTokens m chat_id query cs e hso]
  · intro cs h e hso hcr
    rw [stream_countError sendStream countTokens m chat_id query cs h e hso hcr]

/-- C3 witness: a failing model call on the empty mapping leaves exactly
the ensured mapping (the empty entry for id 0). -/
theorem failure_mapping_effects_witness :
    (get_chat_response failSend wCount emptyConv 0 "q").1 = ensure emptyConv 0 :=
  (failure_mapping_effects failSend failSendStream wCount
    emptyConv 0 "q").2.1 "boom" rfl

/-- C4: `get_chat_response` and `get_chat_response_stream` fail exactly
when an upstream call (the model call, or the token count made inside the
same `try`) fails, and then the single generic wrapped error carries the
original error's message appended to the fixed warning text; on upstream
success no error is produced. -/
theorem errors_wrapped_iff
    (send : History → String → Except String SendOutcome)
    (sendStream : History → String → StreamOutcome)
    (countTokens : History → Except String Nat)
    (m : ConvMap) (chat_id : Int) (query : String) :
    (∀ e, send (histD m chat_id) query = .error e →
      (get_chat_response send countTokens m chat_id query).2
        = .error (wrapError e)) ∧
    (∀ out e, send (histD m chat_id) query = .ok out →
      countTokens out.history = .error e →
      (get_chat_response send countTokens m chat_id query).2
        = .error (wrapError e)) ∧
    ((∃ e2, (get_chat_response send countTokens m chat_id query).2
        = .error e2) ↔
      ((∃ e, send (histD m chat_id) query = .error e) ∨
        (∃ out e, send (histD m chat_id) query = .ok out ∧
          countTokens out.history = .error e))) ∧
    (∀ e, wrapError e
      = "⚠️ An error occurred while communicating with Gemini. ⚠️\n" ++ e) ∧
    (∀ cs e, sendStream (histD m chat_id) query = ⟨cs, .error e⟩ →
      (get_chat_response_stream sendStream countTokens m chat_id query).failure
        = some (wrapError e)) ∧
    (∀ cs h e, sendStream (histD m chat_id) query = ⟨cs, .ok h⟩ →
      countTokens h = .error e →
      (get_chat_response_stream sendStream countTokens m chat_id query).failure
        = some (wrapError e)) ∧
    ((get_chat_response_stream sendStream countTokens m chat_id query).failure
        = none ↔
      (∃ h n, (sendStream (histD m chat_id) query).tail = .ok h ∧
        countTokens h = .ok n)) := by
  refine ⟨?_, ?_, ?_, fun _ => rfl, ?_, ?_, ?_⟩
  · intro e hsr
    rw [get_chat_response_sendError send countTokens m chat_id query e hsr]
  · intro out e hsr hcr
    rw [get_chat_response_countError send countTokens m chat_id query
      out e hsr hcr]
  · constructor
    · rintro ⟨e2, he2⟩
      cases hsr : send (histD m chat_id) query with
      | error e => exact Or.inl ⟨e, rfl⟩
      | ok out =>
        cases hcr : countTokens out.history with
        | error e => exact Or.inr ⟨out, e, rfl, hcr⟩
        | ok n =>
          rw [get_chat_response_ok send countTokens m chat_id query
            out n hsr hcr] at he2
          exact Except.noConfusion he2
    · rintro (⟨e, hsr⟩ | ⟨out, e, hsr, hcr⟩)
      · exact ⟨wrapError e,
          by rw [get_chat_response_sendError send countTokens m chat_id
            query e hsr]⟩
      · exact ⟨wrapError e,
          by rw [get_chat_response_countError send countTokens m chat_id
            query out e hsr hcr]⟩
  · intro cs e hso
    rw [stream_tailError sendStream countTokens m chat_id query cs e hso]
  · intro cs h e hso hcr
    rw [stream_countError sendStream countTokens m chat_id query cs h e hso hcr]
  · constructor
    · intro hnone
      rcases hso : sendStream (histD m chat_id) query with ⟨cs, tl⟩
      cases tl with
      | error e =>
        rw [stream_tailError sendStream countTokens m chat_id query
          cs e hso] at hnone
        exact Option.noConfusion hnone
      | ok h =>
        cases hcr : countTokens h with
        | error e =>
          rw [stream_countError sendStream countTokens m chat_id query
            cs h e hso hcr] at hnone
          exact Option.noConfusion hnone
        | ok n => exact ⟨h, n, by simp [hso], hcr⟩
    · rintro ⟨h, n, htl, hcr⟩
      rcases hso : sendStream (histD m chat_id) query with ⟨cs, tl⟩
      rw [hso] at htl
      cases htl
      rw [stream_ok sendStream countTokens m chat_id query cs h n hso hcr]

/-- C4 witness: a failing model call yields exactly the wrapped error, and
the wrapped message is the fixed warning text followed by the original
message. -/
theorem errors_wrapped_iff_witness :
    (get_chat_response failSend wCount emptyConv 0 "q").2
      = .error (wrapError "boom") ∧
    wrapError "boom"
      = "⚠️ An error occurred while communicating with Gemini. ⚠️\n" ++ "boom" :=
  ⟨(errors_wrapped_iff failSend failSendStream wCount emptyConv 0 "q").1
      "boom" rfl,
    (errors_wrapped_iff failSend failSendStream wCount
      emptyConv 0 "q").2.2.2.1 "boom"⟩

/-- C7: `get_conversation_stats` returns the pair of the stored history's
length and the token count the external API reports for that history; for
an id with no stored entry the reported message count is zero. -/
theorem stats_reports_length_and_tokens
    (countTokens : History → Except String Nat)
    (m : ConvMap) (chat_id : Int) (n : Nat)
    (hc : countTokens (histD m chat_id) = .ok n) :
    (get_conversation_stats countTokens m chat_id).2
      = .ok ((histD m chat_id).length, n) ∧
    (m chat_id = none →
      (get_conversation_stats countTokens m chat_id).2 = .ok (0, n)) := by
  constructor
  · unfold get_conversation_stats
    rw [histD_ensure, hc]
  · intro h0
    unfold get_conversation_stats
    rw [histD_ensure, hc]
    simp [histD, h0]

/-- C7 witness: stats on the empty mapping at id 0 with a length-counting
token oracle reports zero messages and zero tokens. -/
theorem stats_reports_length_and_tokens_witness :
    (get_conversation_stats wCount emptyConv 0).2 = .ok (0, 0) :=
  (stats_reports_length_and_tokens wCount emptyConv 0 0 rfl).2 rfl

/-- C10: calling `get_conversation_stats` on an id with no stored entry is
not a pure read: it inserts an empty history entry for that id into the
mapping (whether or not the token call succeeds), leaving every other id's
entry unchanged. -/
theorem stats_inserts_empty_entry
    (countTokens : History → Except String Nat)
    (m : ConvMap) (chat_id : Int) (h0 : m chat_id = none) :
    (get_conversation_stats countTokens m chat_id).1 chat_id = some [] ∧
    (∀ j, j ≠ chat_id →
      (get_conversation_stats countTokens m chat_id).1 j = m j) := by
  have h1 : (get_conversation_stats countTokens m chat_id).1 = ensure m chat_id := by
    unfold get_conversation_stats
    cases countTokens (histD (ensure m chat_id) chat_id) <;> rfl
  rw [h1, ensure_of_none m chat_id h0]
  constructor
  · unfold ConvMap.insert
    simp
  · intro j hj
    unfold ConvMap.insert
    simp [hj]

/-- C10 witness: on the empty mapping at id 0 (even with a failing token
oracle) the entry 0 is created empty and id 1 stays absent. -/
theorem stats_inserts_empty_entry_witness :
    (get_conversation_stats failCount emptyConv 0).1 0 = some [] ∧
    (get_conversation_stats failCount emptyConv 0).1 1 = emptyConv 1 :=
  ⟨(stats_inserts_empty_entry failCount emptyConv 0 rfl).1,
    (stats_inserts_empty_entry failCount emptyConv 0 rfl).2 1 (by decide)⟩

/-- C2 counterexample: at the concrete input of a single upstream chunk
"hi" (empty mapping, id 0, query "q", success), the stream yields
`[("hi", "not_finished"), ("hi", "2")]`: the non-final element's status is
the literal "not_finished", not "in_progress", and the last yielded text
"hi" does not strictly extend the previous yielded text "hi". -/
theorem stream_claim_counterexample :
    (get_chat_response_stream wSendStream wCount emptyConv 0 "q").yields
      = [("hi", "not_finished"), ("hi", "2")] ∧
    ("not_finished" : String) ≠ "in_progress" ∧
    ¬ strictGrow "hi" "hi" := by
  refine ⟨by decide, by decide, ?_⟩
  rintro ⟨t, ht, hap⟩
  exact ht (append_eq_self hap)

/-- C2 corrected: on a successful streamed call, every yielded element
before the last has the status literal "not_finished" (the code never
yields "in_progress"); the texts of those elements are strictly growing,
each one a prefix of the final answer text; the final element carries the
final token count together with the final answer text, which equals (does
not strictly extend) the last in-progress text when one exists. -/
theorem stream_yields_growing_texts
    (sendStream : History → String → StreamOutcome)
    (countTokens : History → Except String Nat)
    (m : ConvMap) (chat_id : Int) (query : String)
    (cs : List String) (h : History) (n : Nat)
    (hso : sendStream (histD m chat_id) query = ⟨cs, .ok h⟩)
    (hc : countTokens h = .ok n) :
    (get_chat_response_stream sendStream countTokens m chat_id query).yields.getLast?
      = some (finalAcc "" cs, toString n) ∧
    (∀ p ∈ (get_chat_response_stream sendStream countTokens m chat_id query).yields.dropLast,
      p.2 = "not_finished") ∧
    List.Chain' (fun a b => strictGrow a.1 b.1)
      (get_chat_response_stream sendStream countTokens m chat_id query).yields.dropLast ∧
    (∀ p ∈ (get_chat_response_stream sendStream countTokens m chat_id query).yields.dropLast,
      isPre p.1 (finalAcc "" cs)) ∧
    (∀ p, (get_chat_response_stream sendStream countTokens m chat_id query).yields.dropLast.getLast?
        = some p → p.1 = finalAcc "" cs) := by
  rw [stream_ok sendStream countTokens m chat_id query cs h n hso hc]
  dsimp only
  rw [List.dropLast_concat]
  refine ⟨?_, accumYields_status cs "", accumYields_chain cs "",
    accumYields_pre cs "", accumYields_last cs ""⟩
  simp

/-- C2 witness: with the one-chunk oracle the last yielded element is the
final answer together with the token count. -/
theorem stream_yields_growing_texts_witness :
    (get_chat_response_stream wSendStream wCount emptyConv 0 "q").yields.getLast?
      = some (finalAcc "" ["hi"], toString 2) :=
  (stream_yields_growing_texts wSendStream wCount emptyConv 0 "q"
    (["hi"]) ([⟨"user", "q"⟩, ⟨"model", "hi"⟩]) 2 rfl rfl).1

/-- C9: with a finite upstream chunk sequence the sequence of yielded
elements is finite: on success it consists of exactly one element per
non-empty upstream chunk plus exactly one final element, and on an
upstream failure (of the stream or of the token count) of exactly one
element per non-empty chunk with no final element. -/
theorem stream_finite_length
    (sendStream : History → String → StreamOutcome)
    (countTokens : History → Except String Nat)
    (m : ConvMap) (chat_id : Int) (query : String) :
    (∀ cs h n, sendStream (histD m chat_id) query = ⟨cs, .ok h⟩ →
      countTokens h = .ok n →
      (get_chat_response_stream sendStream countTokens m chat_id query).yields.length
        = cs.countP (fun c => !(c == "")) + 1) ∧
    (∀ cs e, sendStream (histD m chat_id) query = ⟨cs, .error e⟩ →
      (get_chat_response_stream sendStream countTokens m chat_id query).yields.length
        = cs.countP (fun c => !(c == ""))) ∧
    (∀ cs h e, sendStream (histD m chat_id) query = ⟨cs, .ok h⟩ →
      countTokens h = .error e →
      (get_chat_response_stream sendStream countTokens m chat_id query).yields.length
        = cs.countP (fun c => !(c == ""))) := by
  refine ⟨?_, ?_, ?_⟩
  · intro cs h n hso hc
    rw [stream_ok sendStream countTokens m chat_id query cs h n hso hc]
    dsimp only
    rw [List.length_append, accumYields_length cs ""]
    rfl
  · intro cs e hso
    rw [stream_tailError sendStream countTokens m chat_id query cs e hso]
    exact accumYields_length cs ""
  · intro cs h e hso hc
    rw [stream_countError sendStream countTokens m chat_id query cs h e hso hc]
    exact accumYields_length cs ""

/-- C9 witness: with chunks ["hi", ""] (one non-empty chunk, one empty
chunk) the stream yields exactly two elements. -/
theorem stream_finite_length_witness :
    (get_chat_response_stream wSendStreamE wCount emptyConv 0 "q").yields.length
      = 2 :=
  (stream_finite_length wSendStreamE wCount emptyConv 0 "q").1
    (["hi", ""]) ([⟨"user", "q"⟩, ⟨"model", "hi"⟩]) 2 rfl rfl

/-- C8: construction fails exactly when the configured `api_key` is absent
or empty; with a present non-empty key it succeeds and initializes an
empty conversation-history mapping. -/
theorem init_requires_api_key (config : Config) :
    ((∃ e, GeminiHelper.init config = .error e) ↔
      (config.api_key = none ∨ config.api_key = some "")) ∧
    (∀ k, config.api_key = some k → k ≠ "" →
      GeminiHelper.init config = .ok ⟨config, emptyConv⟩) := by
  constructor
  · unfold GeminiHelper.init
    cases hk : config.api_key with
    | none => simp
    | some k =>
      by_cases hke : k = "" <;> simp [hke]
  · intro k hk hke
    unfold GeminiHelper.init
    rw [hk]
    simp [hke]

/-- C8 witness: a config with key "secret" constructs a helper with the
empty mapping, and a config with empty key is rejected. -/
theorem init_requires_api_key_witness :
    GeminiHelper.init ⟨some "secret"⟩ = .ok ⟨⟨some "secret"⟩, emptyConv⟩ ∧
    (∃ e, GeminiHelper.init ⟨some ""⟩ = .error e) :=
  ⟨(init_requires_api_key ⟨some "secret"⟩).2 "secret" rfl (by decide),
    (init_requires_api_key ⟨some ""⟩).1.mpr (Or.inr rfl)⟩

end GeminiBot
